import Mathlib

/-!
Verification of the dose-schedule expansion and adherence reconciliation
engine of the Bolt medication tracker.

The definitions below are a shallow embedding of the TypeScript source:

* `generateScheduledTimes`    — `src/lib/supabase.ts`
* `reconcile`                 — the per-instant body of `generateScheduledDoses`
                                 in `src/components/DailyPrescriptionsModal.tsx`
* `getTimeDifferenceColorDaily` / `getTimeDifferenceColorHistory`
                              — `getTimeDifferenceColor` in
                                `DailyPrescriptionsModal.tsx` resp.
                                `PrescriptionHistoryModal.tsx`
* `showCorrected`             — the correction-indicator predicate in
                                `DailyPrescriptionsModal.tsx` (lines 536-541)
* `getStats` / `getStatsHistory` / `getAdherenceRate`
                              — the aggregation helpers
* `handleSaveEdit`            — the pure update performed by
                                `PrescriptionHistoryModal.handleSaveEdit`

JavaScript `Date` values are modelled as naive local wall-clock civil
date-times (the source and its spec treat all schedule times as naive
local time; no timezone conversion is involved in the modelled code
paths).  `Date.prototype.getTime` is modelled by `epochMs`, built on the
standard civil-from-days calendar algorithm, and `Date.prototype.getDay`
by `jsGetDay` (0 = Sunday).  JavaScript floating-point arithmetic on
millisecond differences is modelled exactly over `ℚ`; the quantities
involved (divisions by 60000 and comparisons against small integer
thresholds) are far below the scale at which double rounding could
change any comparison result in the modelled functions.
-/

namespace Bolt

/-- Dose status as stored on a `medication_logs` row
(`'pending' | 'taken' | 'missed' | 'skipped'`). -/
inductive Status where
  | pending
  | taken
  | missed
  | skipped
deriving DecidableEq, Repr

/-- A wall-clock time of day (hour:minute:second), as denoted by a
`HH:mm:ss` string in the source. -/
structure TimeOfDay where
  hour : Nat
  minute : Nat
  second : Nat
deriving DecidableEq, Repr

/-- A calendar date (year-month-day), as denoted by a `yyyy-MM-dd`
string in the source. -/
structure CivilDate where
  year : Int
  month : Nat
  day : Nat
deriving DecidableEq, Repr

/-- A naive local date-time, modelling a JavaScript `Date` interpreted
as local wall-clock time. -/
structure CivilDateTime where
  date : CivilDate
  time : TimeOfDay
deriving DecidableEq, Repr

/-- Days since 1970-01-01 of a civil date (the standard civil-calendar
day-count algorithm, using floor division so it is uniform in the
sign of the year). -/
def daysFromCivil (d : CivilDate) : Int :=
  let y : Int := if d.month ≤ 2 then d.year - 1 else d.year
  let m : Int := (d.month : Int)
  let era : Int := Int.fdiv y 400
  let yoe : Int := y - era * 400
  let doy : Int := Int.fdiv (153 * (m + (if 2 < m then -3 else 9)) + 2) 5 + (d.day : Int) - 1
  let doe : Int := yoe * 365 + Int.fdiv yoe 4 - Int.fdiv yoe 100 + doy
  era * 146097 + doe - 719468

/-- `Date.prototype.getDay`: day of week with 0 = Sunday.
1970-01-01 was a Thursday (4). -/
def jsGetDay (d : CivilDate) : Nat :=
  ((daysFromCivil d + 4).emod 7).toNat

/-- `Date.prototype.getTime` of a naive local date-time: milliseconds
since the epoch of the same wall clock. -/
def epochMs (t : CivilDateTime) : Int :=
  (daysFromCivil t.date * 86400
    + (t.time.hour : Int) * 3600 + (t.time.minute : Int) * 60 + (t.time.second : Int)) * 1000

/-- A `dose_schedules` row (`DoseSchedule` in `src/lib/supabase.ts`).
`dose_time` is the parsed `HH:mm:ss` string. -/
structure DoseSchedule where
  prescription_id : Nat
  dose_time : TimeOfDay
  quantity : Nat
  days_of_week : List Nat
  is_active : Bool
deriving DecidableEq, Repr

/-- The `Date` built by `generateScheduledTimes` for one matching rule:
`const time = new Date(date); time.setHours(hours, minutes, 0, 0)`.
Only the hour and minute components of `dose_time` are read (the
source destructures `[hours, minutes]` from `dose_time.split(':')`),
and seconds/milliseconds are set to zero. -/
def scheduledInstant (date : CivilDate) (s : DoseSchedule) : CivilDateTime :=
  ⟨date, ⟨s.dose_time.hour, s.dose_time.minute, 0⟩⟩

/-- Insert into a list sorted ascending by `epochMs`. -/
def insertByMs (a : CivilDateTime) : List CivilDateTime → List CivilDateTime
  | [] => [a]
  | b :: l => if epochMs a ≤ epochMs b then a :: b :: l else b :: insertByMs a l

/-- Sort ascending by `epochMs`, modelling the JavaScript
`.sort((a, b) => a.getTime() - b.getTime())` call (a stable
comparison sort; we use insertion sort, which realises the same
ascending-by-`getTime` ordering). -/
def sortByMs : List CivilDateTime → List CivilDateTime
  | [] => []
  | a :: l => insertByMs a (sortByMs l)

/-- `generateScheduledTimes` from `src/lib/supabase.ts`:
remap Sunday from 0 to 7, keep active rules whose `days_of_week`
contains the remapped weekday, build the instant for the target date,
and sort ascending by `getTime()`. -/
def generateScheduledTimes (schedules : List DoseSchedule) (date : CivilDate) :
    List CivilDateTime :=
  let dayOfWeek : Nat := if jsGetDay date = 0 then 7 else jsGetDay date
  sortByMs ((schedules.filter fun s =>
      s.is_active && decide (dayOfWeek ∈ s.days_of_week)).map
    (scheduledInstant date))

/-- A `medication_logs` row (`MedicationLog` in `src/lib/supabase.ts`),
restricted to the fields the modelled code paths read.
`scheduled_time` is the epoch-millisecond value of
`new Date(l.scheduled_time).getTime()`. -/
structure MedicationLog where
  id : Nat
  prescription_id : Nat
  scheduled_time : Int
  status : Status
  is_time_corrected : Bool
deriving DecidableEq, Repr

/-- A `medication_history` row (`MedicationHistory` in
`src/lib/supabase.ts`), restricted to the fields the modelled code
paths read.  `scheduled_date` / `scheduled_time` are the parsed
`yyyy-MM-dd` / `HH:mm:ss` strings (stored in canonical form by the
database `date` / `time` column types, so string equality in the
source coincides with component equality here);
`actual_taken_datetime` is the epoch-millisecond timestamp. -/
structure MedicationHistory where
  id : Nat
  prescription_id : Nat
  scheduled_date : CivilDate
  scheduled_time : TimeOfDay
  actual_taken_datetime : Int
  is_corrected : Bool
  notes : String
deriving DecidableEq, Repr

/-- The history-match predicate of `generateScheduledDoses`
(`DailyPrescriptionsModal.tsx`, lines 122-126):
`h.prescription_id === prescription.id && h.scheduled_date ===
format(date, 'yyyy-MM-dd') && h.scheduled_time ===
format(scheduledTime, 'HH:mm:ss')`. -/
def historyMatches (pid : Nat) (inst : CivilDateTime) (h : MedicationHistory) : Bool :=
  decide (h.prescription_id = pid ∧ h.scheduled_date = inst.date ∧
    h.scheduled_time = inst.time)

/-- The log-match predicate of `generateScheduledDoses`
(`DailyPrescriptionsModal.tsx`, lines 135-138) and of
`PrescriptionCard.getTodaysDoses`:
`Math.abs(logTime.getTime() - scheduledTime.getTime()) < 60000`.
Note that the predicate reads only the log's scheduled timestamp —
no `prescription_id` comparison appears in the source. -/
def logMatches (inst : CivilDateTime) (l : MedicationLog) : Bool :=
  decide ((l.scheduled_time - epochMs inst).natAbs < 60000)

/-- The per-instant result assembled by `generateScheduledDoses`
(the `{ status, log, historyEntry }` part of the pushed
`ScheduledDose`). -/
structure ReconciledDose where
  status : Status
  log : Option MedicationLog
  historyEntry : Option MedicationHistory
deriving DecidableEq, Repr

/-- The per-instant reconciliation body of `generateScheduledDoses`
(`DailyPrescriptionsModal.tsx`, lines 121-146): look for a History
Event first (`history.find(...)`); on a hit the status is `taken` and
the log stays unset; otherwise take the first Log Event within the
60-second window (`logs.find(...)`) and use its stored status, falling
back to `pending` (the `scheduledTime < new Date()` branch of the
source also assigns `pending`, so the result does not depend on the
current time and `now` is not a parameter here). -/
def reconcile (pid : Nat) (inst : CivilDateTime) (logs : List MedicationLog)
    (history : List MedicationHistory) : ReconciledDose :=
  match history.find? (historyMatches pid inst) with
  | some h => ⟨Status.taken, none, some h⟩
  | none =>
    match logs.find? (logMatches inst) with
    | some l => ⟨l.status, some l, none⟩
    | none => ⟨Status.pending, none, none⟩

/-- The three colour buckets returned by the `getTimeDifferenceColor`
helpers (green = on-time, yellow = moderate deviation, red = large
deviation). -/
inductive TimingColor where
  | green
  | yellow
  | red
deriving DecidableEq, Repr

/-- JavaScript `Math.round (a / b)` for integer `a` and positive
integer `b`: round half toward positive infinity, i.e.
`⌊a / b + 1 / 2⌋`. -/
def jsRoundDiv (a b : Int) : Int :=
  Int.fdiv (2 * a + b) (2 * b)

/-- `getTimeDifferenceColor` from `DailyPrescriptionsModal.tsx`
(lines 205-212): the *unrounded* absolute difference in minutes is
compared against the 15 / 60 thresholds.  Arguments are the epoch-ms
values of the scheduled instant and the actual-taken timestamp. -/
def getTimeDifferenceColorDaily (scheduledMs actualMs : Int) : TimingColor :=
  if |((actualMs : ℚ) - (scheduledMs : ℚ)) / (1000 * 60)| ≤ 15 then TimingColor.green
  else if |((actualMs : ℚ) - (scheduledMs : ℚ)) / (1000 * 60)| ≤ 60 then TimingColor.yellow
  else TimingColor.red

/-- `getTimeDifferenceColor` from `PrescriptionHistoryModal.tsx`
(lines 195-203): the difference in minutes is rounded
(`Math.round`) first, and the absolute value of the rounded offset is
compared against the 15 / 60 thresholds. -/
def getTimeDifferenceColorHistory (scheduledMs actualMs : Int) : TimingColor :=
  if |jsRoundDiv (actualMs - scheduledMs) (1000 * 60)| ≤ 15 then TimingColor.green
  else if |jsRoundDiv (actualMs - scheduledMs) (1000 * 60)| ≤ 60 then TimingColor.yellow
  else TimingColor.red

/-- The correction-indicator predicate of `DailyPrescriptionsModal.tsx`
(lines 536-541): show "Time was corrected" iff the *unrounded*
absolute difference in minutes exceeds 1.  The stored `is_corrected`
flag is not consulted. -/
def showCorrected (scheduledMs actualMs : Int) : Bool :=
  decide ((1 : ℚ) < |((actualMs : ℚ) - (scheduledMs : ℚ)) / (1000 * 60)|)

/-- The fields of a `ScheduledDose` read by the aggregation helper
`getStats` in `DailyPrescriptionsModal.tsx`. -/
structure ScheduledDose where
  prescription_id : Nat
  scheduledDateTime : CivilDateTime
  quantity : Nat
  status : Status
  log : Option MedicationLog
  historyEntry : Option MedicationHistory
deriving DecidableEq, Repr

/-- The summary record returned by `getStats` in
`DailyPrescriptionsModal.tsx`. -/
structure DailyStats where
  total : Nat
  taken : Nat
  missed : Nat
  pending : Nat
deriving DecidableEq, Repr

/-- `getStats` from `DailyPrescriptionsModal.tsx` (lines 252-259):
total count and per-status counts over the scheduled doses. -/
def getStats (scheduledDoses : List ScheduledDose) : DailyStats :=
  ⟨scheduledDoses.length,
    (scheduledDoses.filter fun d => d.status == Status.taken).length,
    (scheduledDoses.filter fun d => d.status == Status.missed).length,
    (scheduledDoses.filter fun d => d.status == Status.pending).length⟩

/-- The summary record returned by `getStats` in
`PrescriptionHistoryModal.tsx`. -/
structure HistoryStats where
  total : Nat
  onTime : Nat
  corrected : Nat
deriving DecidableEq, Repr

/-- `getStats` from `PrescriptionHistoryModal.tsx` (lines 243-255):
the on-time statistic counts entries whose unrounded absolute
difference between actual and scheduled time is at most 15 minutes. -/
def getStatsHistory (filteredHistory : List MedicationHistory) : HistoryStats :=
  ⟨filteredHistory.length,
    (filteredHistory.filter fun entry =>
      decide (|((entry.actual_taken_datetime : ℚ) -
        (epochMs ⟨entry.scheduled_date, entry.scheduled_time⟩ : ℚ)) / (1000 * 60)| ≤ 15)).length,
    (filteredHistory.filter fun entry => entry.is_corrected).length⟩

/-- `getAdherenceRate` from the dashboard component in
`PrescriptionHistoryModal.tsx` (lines 1121-1125):
`if (logs.length === 0) return 0;
 return Math.round((takenLogs / logs.length) * 100)`.
For naturals `t ≤ n`, `Math.round (t / n * 100)` equals
`⌊(200 t + n) / (2 n)⌋` (round half up), which is the form used
here. -/
def getAdherenceRate (logs : List MedicationLog) : Nat :=
  if logs.length = 0 then 0
  else (200 * (logs.filter fun l => l.status == Status.taken).length + logs.length)
    / (2 * logs.length)

/-- The pure update performed by `handleSaveEdit` in
`PrescriptionHistoryModal.tsx` (lines 117-144) on the edited history
row.  `editDateTime` is `none` when the datetime input is empty
(the `if (!editingEntry || !editDateTime) return` guard) and
`some dt` with `dt` the epoch-ms value of the entered local datetime
otherwise.  On save the row's `actual_taken_datetime` and `notes` are
replaced and `is_corrected` is set to `true` unconditionally. -/
def handleSaveEdit (entry : MedicationHistory) (editDateTime : Option Int)
    (editNotes : String) : Option MedicationHistory :=
  match editDateTime with
  | none => none
  | some dt => some { entry with
      actual_taken_datetime := dt
      notes := editNotes
      is_corrected := true }

/-! ### Helper lemmas -/

theorem mem_insertByMs {x a : CivilDateTime} {l : List CivilDateTime} :
    x ∈ insertByMs a l ↔ x = a ∨ x ∈ l := by
  induction l with
  | nil => simp [insertByMs]
  | cons b l ih =>
    by_cases h : epochMs a ≤ epochMs b
    · simp [insertByMs, h]
    · simp only [insertByMs, if_neg h, List.mem_cons, ih]
      tauto

theorem mem_sortByMs {x : CivilDateTime} {l : List CivilDateTime} :
    x ∈ sortByMs l ↔ x ∈ l := by
  induction l with
  | nil => simp [sortByMs]
  | cons a l ih => simp [sortByMs, mem_insertByMs, ih]

theorem abs_ms_div_le_iff (s a : Int) (bound : ℚ) (m : Nat)
    (hm : (m : ℚ) = bound * (1000 * 60)) :
    |((a : ℚ) - (s : ℚ)) / (1000 * 60)| ≤ bound ↔ (a - s).natAbs ≤ m := by
  rw [abs_div, abs_of_pos (by norm_num : (0:ℚ) < 1000 * 60),
    div_le_iff₀ (by norm_num : (0:ℚ) < 1000 * 60), ← hm]
  rw [show (a : ℚ) - (s : ℚ) = ((a - s : Int) : ℚ) by push_cast; ring]
  rw [← Int.cast_abs, Int.abs_eq_natAbs]
  norm_cast

theorem lt_abs_ms_div_iff (s a : Int) (bound : ℚ) (m : Nat)
    (hm : (m : ℚ) = bound * (1000 * 60)) :
    bound < |((a : ℚ) - (s : ℚ)) / (1000 * 60)| ↔ m < (a - s).natAbs := by
  rw [abs_div, abs_of_pos (by norm_num : (0:ℚ) < 1000 * 60),
    lt_div_iff₀ (by norm_num : (0:ℚ) < 1000 * 60), ← hm]
  rw [show (a : ℚ) - (s : ℚ) = ((a - s : Int) : ℚ) by push_cast; ring]
  rw [← Int.cast_abs, Int.abs_eq_natAbs]
  norm_cast

/-- The Daily modal's colour bucketing expressed over exact
millisecond differences: 15 minutes = 900000 ms and 60 minutes =
3600000 ms. -/
theorem getTimeDifferenceColorDaily_char (s a : Int) :
    getTimeDifferenceColorDaily s a =
      if (a - s).natAbs ≤ 900000 then TimingColor.green
      else if (a - s).natAbs ≤ 3600000 then TimingColor.yellow
      else TimingColor.red := by
  unfold getTimeDifferenceColorDaily
  simp only [abs_ms_div_le_iff s a 15 900000 (by norm_num),
    abs_ms_div_le_iff s a 60 3600000 (by norm_num)]

/-- The correction indicator expressed over exact millisecond
differences: the unrounded offset exceeds one minute iff the absolute
millisecond difference exceeds 60000. -/
theorem showCorrected_char (s a : Int) :
    showCorrected s a = true ↔ 60000 < (a - s).natAbs := by
  unfold showCorrected
  rw [decide_eq_true_iff]
  exact lt_abs_ms_div_iff s a 1 60000 (by norm_num)

theorem reconcile_find_some {pid : Nat} {inst : CivilDateTime}
    {logs : List MedicationLog} {history : List MedicationHistory} {h : MedicationHistory}
    (hfind : history.find? (historyMatches pid inst) = some h) :
    reconcile pid inst logs history = ⟨Status.taken, none, some h⟩ := by
  unfold reconcile
  rw [hfind]

theorem reconcile_find_none {pid : Nat} {inst : CivilDateTime}
    {logs : List MedicationLog} {history : List MedicationHistory}
    (hfind : history.find? (historyMatches pid inst) = none) :
    reconcile pid inst logs history =
      match logs.find? (logMatches inst) with
      | some l => ⟨l.status, some l, none⟩
      | none => ⟨Status.pending, none, none⟩ := by
  unfold reconcile
  rw [hfind]

theorem reconcile_historyEntry_isSome {pid : Nat} {inst : CivilDateTime}
    {logs : List MedicationLog} {history : List MedicationHistory} :
    (reconcile pid inst logs history).historyEntry.isSome = true ↔
      ∃ h ∈ history, historyMatches pid inst h = true := by
  cases hfind : history.find? (historyMatches pid inst) with
  | some h =>
    rw [reconcile_find_some hfind]
    simp only [Option.isSome_some, true_iff]
    exact ⟨h, List.mem_of_find?_eq_some hfind, List.find?_some hfind⟩
  | none =>
    rw [reconcile_find_none hfind]
    have hnone := List.find?_eq_none.mp hfind
    have hno : ¬ ∃ h ∈ history, historyMatches pid inst h = true := by
      rintro ⟨h, hmem, hmatch⟩
      exact absurd hmatch (hnone h hmem)
    cases hlog : logs.find? (logMatches inst) <;> simp [hno]

/-! ### Claim theorems -/

/-- C1: for every Dose Instant and every snapshot of Log Events and
History Events supplied for the instant's prescription (the Event
Correlator's input contract: all History Events in the snapshot carry
the instant's `prescription_id`), `reconcile` returns status `taken`
together with a linked History Event if and only if some History Event
records a scheduled date equal to the instant's calendar date and a
scheduled time-of-day equal to the instant's time-of-day.  The match
is against the intended schedule fields only (the actual-taken
timestamp does not occur in the match predicate), and since the
result is independent of `logs`, a matching History Event determines
the status even when a Log Event with a different status also matches
the instant. -/
theorem C1_taken_iff_history_match (pid : Nat) (inst : CivilDateTime)
    (logs : List MedicationLog) (history : List MedicationHistory)
    (hpid : ∀ h ∈ history, h.prescription_id = pid) :
    ((reconcile pid inst logs history).status = Status.taken ∧
        (reconcile pid inst logs history).historyEntry.isSome = true) ↔
      ∃ h ∈ history, h.scheduled_date = inst.date ∧ h.scheduled_time = inst.time := by
  constructor
  · rintro ⟨-, hsome⟩
    obtain ⟨h, hmem, hmatch⟩ := reconcile_historyEntry_isSome.mp hsome
    unfold historyMatches at hmatch
    rw [decide_eq_true_iff] at hmatch
    exact ⟨h, hmem, hmatch.2.1, hmatch.2.2⟩
  · rintro ⟨h, hmem, hdate, htime⟩
    have hmatch : historyMatches pid inst h = true := by
      unfold historyMatches
      exact decide_eq_true_iff.mpr ⟨hpid h hmem, hdate, htime⟩
    have hsome : (history.find? (historyMatches pid inst)).isSome = true :=
      List.find?_isSome.mpr ⟨h, hmem, hmatch⟩
    obtain ⟨h', hfind⟩ := Option.isSome_iff_exists.mp hsome
    rw [reconcile_find_some hfind]
    exact ⟨rfl, rfl⟩

/-- C2: for a Dose Instant with no matching History Event, if some Log
Event's stored scheduled timestamp is strictly within the fixed
60-second tolerance (`Math.abs(diff) < 60000` in the source), the
reconciled status is the stored status of such a Log Event (the first
one in the snapshot); if no Log Event is within the tolerance, the
status is `pending`.  The second conjunct holds for every instant, in
particular for instants in the past: `reconcile` takes no clock
parameter at all (the source's `scheduledTime < new Date()` branch
also assigns `pending`), so a past instant is never auto-derived as
`missed`. -/
theorem C2_log_tolerance_and_pending_fallback (pid : Nat) (inst : CivilDateTime)
    (logs : List MedicationLog) (history : List MedicationHistory)
    (hnohist : ∀ h ∈ history, ¬(h.prescription_id = pid ∧
      h.scheduled_date = inst.date ∧ h.scheduled_time = inst.time)) :
    ((∃ l ∈ logs, (l.scheduled_time - epochMs inst).natAbs < 60000) →
      ∃ l ∈ logs, (l.scheduled_time - epochMs inst).natAbs < 60000 ∧
        (reconcile pid inst logs history).status = l.status ∧
        (reconcile pid inst logs history).log = some l) ∧
    ((∀ l ∈ logs, ¬((l.scheduled_time - epochMs inst).natAbs < 60000)) →
      (reconcile pid inst logs history).status = Status.pending) := by
  have hfind : history.find? (historyMatches pid inst) = none := by
    rw [List.find?_eq_none]
    intro h hmem
    unfold historyMatches
    simpa using hnohist h hmem
  constructor
  · rintro ⟨l, hmem, hclose⟩
    have hsome : (logs.find? (logMatches inst)).isSome = true := by
      refine List.find?_isSome.mpr ⟨l, hmem, ?_⟩
      unfold logMatches
      exact decide_eq_true_iff.mpr hclose
    obtain ⟨l', hlfind⟩ := Option.isSome_iff_exists.mp hsome
    have hl'mem : l' ∈ logs := List.mem_of_find?_eq_some hlfind
    have hl'close : (l'.scheduled_time - epochMs inst).natAbs < 60000 := by
      have := List.find?_some hlfind
      unfold logMatches at this
      exact decide_eq_true_iff.mp this
    refine ⟨l', hl'mem, hl'close, ?_, ?_⟩ <;>
      · rw [reconcile_find_none hfind, hlfind]
  · intro hfar
    have hlnone : logs.find? (logMatches inst) = none := by
      rw [List.find?_eq_none]
      intro l hmem
      unfold logMatches
      simpa using hfar l hmem
    rw [reconcile_find_none hfind, hlnone]

/-- C3: the Schedule Expander produces the instant of a rule for a
target date if and only if some rule of the collection is active, the
date's weekday remapped from the 0=Sunday native convention into
1..7 space (Sunday becomes 7) is a member of the rule's weekday set,
and the instant is the rule's time combined with the date; in
particular, on a calendar Sunday (`jsGetDay date = 0`) every active
rule whose weekday set contains 7 contributes its instant. -/
theorem C3_weekday_membership (schedules : List DoseSchedule) (date : CivilDate) :
    (∀ t, t ∈ generateScheduledTimes schedules date ↔
      ∃ s ∈ schedules, s.is_active = true ∧
        (if jsGetDay date = 0 then 7 else jsGetDay date) ∈ s.days_of_week ∧
        t = scheduledInstant date s) ∧
    (jsGetDay date = 0 → ∀ s ∈ schedules, s.is_active = true →
      7 ∈ s.days_of_week →
      scheduledInstant date s ∈ generateScheduledTimes schedules date) := by
  have hmem : ∀ t, t ∈ generateScheduledTimes schedules date ↔
      ∃ s ∈ schedules, s.is_active = true ∧
        (if jsGetDay date = 0 then 7 else jsGetDay date) ∈ s.days_of_week ∧
        t = scheduledInstant date s := by
    intro t
    unfold generateScheduledTimes
    rw [mem_sortByMs, List.mem_map]
    constructor
    · rintro ⟨s, hs, rfl⟩
      rw [List.mem_filter] at hs
      obtain ⟨hmem', hcond⟩ := hs
      rw [Bool.and_eq_true, decide_eq_true_iff] at hcond
      exact ⟨s, hmem', hcond.1, hcond.2, rfl⟩
    · rintro ⟨s, hmem', hact, hday, rfl⟩
      refine ⟨s, ?_, rfl⟩
      rw [List.mem_filter]
      exact ⟨hmem', by rw [Bool.and_eq_true, decide_eq_true_iff]; exact ⟨hact, hday⟩⟩
  refine ⟨hmem, ?_⟩
  intro hsun s hs hact h7
  exact (hmem (scheduledInstant date s)).mpr ⟨s, hs, hact, by rw [if_pos hsun]; exact h7, rfl⟩

/-- C4 (counterexample to the claim as stated): a daily rule with
`dose_time = 08:00:30` on a Monday produces the instant
`2024-01-08 08:00:00` — the produced instant's seconds component is 0
and differs from the rule's configured seconds component 30, because
`generateScheduledTimes` destructures only `[hours, minutes]` from
the `dose_time` string and calls `setHours(hours, minutes, 0, 0)`. -/
theorem C4_seconds_counterexample :
    generateScheduledTimes
      [{ prescription_id := 1, dose_time := ⟨8, 0, 30⟩, quantity := 1,
         days_of_week := [1, 2, 3, 4, 5, 6, 7], is_active := true }] ⟨2024, 1, 8⟩ =
      [⟨⟨2024, 1, 8⟩, ⟨8, 0, 0⟩⟩] ∧
    (⟨8, 0, 0⟩ : TimeOfDay) ≠ ⟨8, 0, 30⟩ := by
  decide

/-- C4 (amended): every produced Dose Instant carries the target date
unchanged (no timezone conversion) and a wall-clock time whose hours
and minutes equal some contributing rule's configured hour and
minute, while its seconds component is always 0 regardless of the
rule's seconds component. -/
theorem C4_local_time_hours_minutes (schedules : List DoseSchedule) (date : CivilDate) :
    ∀ t ∈ generateScheduledTimes schedules date,
      t.date = date ∧ t.time.second = 0 ∧
      ∃ s ∈ schedules, s.is_active = true ∧
        t.time.hour = s.dose_time.hour ∧ t.time.minute = s.dose_time.minute := by
  intro t ht
  unfold generateScheduledTimes at ht
  rw [mem_sortByMs, List.mem_map] at ht
  obtain ⟨s, hs, rfl⟩ := ht
  rw [List.mem_filter, Bool.and_eq_true] at hs
  exact ⟨rfl, rfl, s, hs.1, hs.2.1, rfl, rfl⟩

/-- C5 (counterexample to the claim as stated): with two distinct
History Events both matching the same Dose Instant, `reconcile`
silently links the first one; its output is exactly the same as for a
snapshot containing only the first entry, so the second match is not
reported in any form and no warning is surfaced. -/
theorem C5_duplicate_counterexample :
    historyMatches 1 ⟨⟨2024, 1, 10⟩, ⟨8, 0, 0⟩⟩
      ⟨42, 1, ⟨2024, 1, 10⟩, ⟨8, 0, 0⟩, 1704877800000, false, ""⟩ = true ∧
    reconcile 1 ⟨⟨2024, 1, 10⟩, ⟨8, 0, 0⟩⟩ []
      [⟨41, 1, ⟨2024, 1, 10⟩, ⟨8, 0, 0⟩, 1704874200000, false, ""⟩,
       ⟨42, 1, ⟨2024, 1, 10⟩, ⟨8, 0, 0⟩, 1704877800000, false, ""⟩] =
      ⟨Status.taken, none,
        some ⟨41, 1, ⟨2024, 1, 10⟩, ⟨8, 0, 0⟩, 1704874200000, false, ""⟩⟩ ∧
    reconcile 1 ⟨⟨2024, 1, 10⟩, ⟨8, 0, 0⟩⟩ []
      [⟨41, 1, ⟨2024, 1, 10⟩, ⟨8, 0, 0⟩, 1704874200000, false, ""⟩,
       ⟨42, 1, ⟨2024, 1, 10⟩, ⟨8, 0, 0⟩, 1704877800000, false, ""⟩] =
    reconcile 1 ⟨⟨2024, 1, 10⟩, ⟨8, 0, 0⟩⟩ []
      [⟨41, 1, ⟨2024, 1, 10⟩, ⟨8, 0, 0⟩, 1704874200000, false, ""⟩] := by
  refine ⟨by decide, by decide, by decide⟩

/-- C5 (amended): when one or more History Events match a Dose
Instant, `reconcile` links the first match found in the supplied
collection and returns status `taken`; the result is fully determined
by that first match (any snapshot whose first match is the same entry
yields the identical output), so additional matching History Events
are not reported and no warning is produced. -/
theorem C5_first_match_wins (pid : Nat) (inst : CivilDateTime)
    (logs : List MedicationLog) (history : List MedicationHistory)
    (h : MedicationHistory)
    (hfind : history.find? (historyMatches pid inst) = some h) :
    reconcile pid inst logs history = ⟨Status.taken, none, some h⟩ ∧
    ∀ history₂ : List MedicationHistory,
      history₂.find? (historyMatches pid inst) = some h →
      reconcile pid inst logs history₂ = reconcile pid inst logs history := by
  refine ⟨reconcile_find_some hfind, ?_⟩
  intro history₂ hfind₂
  rw [reconcile_find_some hfind, reconcile_find_some hfind₂]

/-- C6 (counterexample to the claim as stated): for a dose taken
15 minutes and 12 seconds late (912000 ms), the claimed rule rounds
the offset to 15 minutes, which is in the on-time bucket
(`|offsetMinutes| ≤ 15`), but the Daily modal's `getTimeDifferenceColor`
classifies the dose in the moderate-deviation (yellow) bucket because
it compares the unrounded 15.2-minute offset against the threshold. -/
theorem C6_rounding_counterexample :
    getTimeDifferenceColorDaily 0 912000 = TimingColor.yellow ∧
    |jsRoundDiv (912000 - 0) (1000 * 60)| ≤ 15 := by
  constructor
  · rw [getTimeDifferenceColorDaily_char]
    decide
  · decide

/-- C6 (amended): the History modal's `getTimeDifferenceColor`
implements exactly the claimed classification — it rounds the offset
to minutes (`offsetMinutes = round((actual − scheduled) / 60s)`,
modelled by `jsRoundDiv`) and buckets it at the fixed 15 / 60
thresholds — while the Daily modal's `getTimeDifferenceColor` buckets
the unrounded absolute offset at the same thresholds (expressed here
exactly in milliseconds: 15 min = 900000 ms, 60 min = 3600000 ms),
so the two disagree on fractional offsets just above a threshold. -/
theorem C6_bucket_characterization (s a : Int) :
    (getTimeDifferenceColorHistory s a = TimingColor.green ↔
      |jsRoundDiv (a - s) (1000 * 60)| ≤ 15) ∧
    (getTimeDifferenceColorHistory s a = TimingColor.yellow ↔
      (15 < |jsRoundDiv (a - s) (1000 * 60)| ∧ |jsRoundDiv (a - s) (1000 * 60)| ≤ 60)) ∧
    (getTimeDifferenceColorHistory s a = TimingColor.red ↔
      60 < |jsRoundDiv (a - s) (1000 * 60)|) ∧
    (getTimeDifferenceColorDaily s a = TimingColor.green ↔ (a - s).natAbs ≤ 900000) ∧
    (getTimeDifferenceColorDaily s a = TimingColor.yellow ↔
      (900000 < (a - s).natAbs ∧ (a - s).natAbs ≤ 3600000)) ∧
    (getTimeDifferenceColorDaily s a = TimingColor.red ↔ 3600000 < (a - s).natAbs) := by
  rw [getTimeDifferenceColorDaily_char]
  unfold getTimeDifferenceColorHistory
  split_ifs with h1 h2 h3 h4 <;>
    refine ⟨?_, ?_, ?_, ?_, ?_, ?_⟩ <;> simp_all <;> omega

/-- C7 (counterexample to the claim as stated): for a dose taken
70 seconds late the correction indicator is shown (`showCorrected =
true`), although the claimed rule (`|round((actual − scheduled) /
60s)| > 1`) gives `round(70/60) = 1`, which does not exceed 1. -/
theorem C7_rounding_counterexample :
    showCorrected 0 70000 = true ∧ ¬(1 < |jsRoundDiv (70000 - 0) (1000 * 60)|) := by
  constructor
  · rw [showCorrected_char]
    decide
  · decide

/-- C7 (amended): the correction indicator is shown if and only if the
*unrounded* absolute offset between actual and scheduled time exceeds
one minute (60000 ms); the stored `is_corrected` flag is not consulted
(it is not a parameter of the predicate).  In particular a dose taken
45 minutes late is marked corrected, and so is one taken 10 minutes
late (the spec's worked example `corrected = false` at 10 minutes
contradicts the > 1 minute rule and the code). -/
theorem C7_corrected_iff_over_one_minute :
    (∀ s a : Int, showCorrected s a = true ↔ 60000 < (a - s).natAbs) ∧
    showCorrected 0 2700000 = true ∧
    showCorrected 0 600000 = true := by
  refine ⟨showCorrected_char, ?_, ?_⟩ <;>
    · rw [showCorrected_char]
      decide

theorem roundHalfUp_close_to_ratio (t n : Nat) (hn : n ≠ 0) :
    |(((200 * t + n) / (2 * n) : Nat) : ℚ) - 100 * (t : ℚ) / (n : ℚ)| ≤ 1 / 2 := by
  have h1 := Nat.div_add_mod (200 * t + n) (2 * n)
  have h2 : (200 * t + n) % (2 * n) < 2 * n := Nat.mod_lt _ (by omega)
  have key1 : 2 * n * ((200 * t + n) / (2 * n)) ≤ 200 * t + n := by omega
  have key2 : 200 * t + n < 2 * n * ((200 * t + n) / (2 * n)) + 2 * n := by omega
  generalize (200 * t + n) / (2 * n) = r at key1 key2 ⊢
  have hnq : (0 : ℚ) < (n : ℚ) := by exact_mod_cast Nat.pos_of_ne_zero hn
  have hrepr : (r : ℚ) - 100 * (t : ℚ) / (n : ℚ) =
      ((2 * n * r : ℚ) - 200 * t) / (2 * n) := by
    field_simp
    ring
  rw [hrepr, abs_div, abs_of_pos (by positivity : (0:ℚ) < 2 * (n:ℚ))]
  rw [div_le_iff₀ (by positivity : (0:ℚ) < 2 * (n:ℚ))]
  have key1q : (2 * n * r : ℚ) ≤ 200 * t + n := by exact_mod_cast key1
  have key2q : (200 * t + n : ℚ) < 2 * n * r + 2 * n := by exact_mod_cast key2
  rw [abs_le]
  constructor <;> nlinarith [key1q, key2q]

/-- C8: the Daily modal aggregator returns the number of doses and the
per-status counts; the adherence rate helper returns 0 on an empty
collection (no division-by-zero fault — the function is total), the
on-time statistic of the History modal aggregator is 0 on an empty
collection, and on a non-empty collection the adherence rate is the
`taken / total` ratio expressed as a percentage rounded to the nearest
integer (within 1/2 of the exact percentage). -/
theorem C8_aggregate_stats (doses : List ScheduledDose) (logs : List MedicationLog)
    (hne : logs ≠ []) :
    (getStats doses).total = doses.length ∧
    (getStats doses).taken = doses.countP (fun d => d.status == Status.taken) ∧
    (getStats doses).missed = doses.countP (fun d => d.status == Status.missed) ∧
    (getStats doses).pending = doses.countP (fun d => d.status == Status.pending) ∧
    getAdherenceRate [] = 0 ∧
    (getStatsHistory []).onTime = 0 ∧
    |(getAdherenceRate logs : ℚ) -
        100 * ((logs.countP fun l => l.status == Status.taken : Nat) : ℚ) /
          (logs.length : ℚ)| ≤ 1 / 2 := by
  have hlen : logs.length ≠ 0 := fun h => hne (List.length_eq_zero.mp h)
  refine ⟨rfl, (List.countP_eq_length_filter _ _).symm,
    (List.countP_eq_length_filter _ _).symm,
    (List.countP_eq_length_filter _ _).symm, rfl, rfl, ?_⟩
  rw [List.countP_eq_length_filter]
  unfold getAdherenceRate
  rw [if_neg hlen]
  exact roundHalfUp_close_to_ratio _ _ hlen

/-- C9: in the implemented reconciliation the linked History Event
always carries the instant's `prescription_id` (the equality is part of
the history-match predicate), but the Log Event that determines the
status is selected by temporal proximity alone: for a concrete
snapshot, a log belonging to prescription 2 that lies 30 seconds from
a prescription-1 instant determines the reconciled status (`missed`)
of that instant. -/
theorem C9_history_pid_checked_log_pid_unchecked :
    (∀ (pid : Nat) (inst : CivilDateTime) (logs : List MedicationLog)
        (history : List MedicationHistory) (h : MedicationHistory),
      (reconcile pid inst logs history).historyEntry = some h →
        h.prescription_id = pid) ∧
    reconcile 1 ⟨⟨2024, 1, 10⟩, ⟨8, 0, 0⟩⟩
        [⟨7, 2, 1704873630000, Status.missed, false⟩] [] =
      ⟨Status.missed, some ⟨7, 2, 1704873630000, Status.missed, false⟩, none⟩ ∧
    (⟨7, 2, 1704873630000, Status.missed, false⟩ : MedicationLog).prescription_id ≠ 1 := by
  refine ⟨?_, by decide, by decide⟩
  intro pid inst logs history h hsome
  cases hfind : history.find? (historyMatches pid inst) with
  | some h' =>
    rw [reconcile_find_some hfind] at hsome
    cases hsome
    have hp := List.find?_some hfind
    unfold historyMatches at hp
    exact (decide_eq_true_iff.mp hp).1
  | none =>
    rw [reconcile_find_none hfind] at hsome
    cases hlog : logs.find? (logMatches inst) <;> rw [hlog] at hsome <;> cases hsome

/-- C10: every save of an edit to a History Event sets `is_corrected`
to `true` unconditionally: whenever `handleSaveEdit` performs an
update (the datetime input is non-empty), the stored row has
`is_corrected = true`, whatever the previous flag, the new timestamp
(which may equal the old one) and the new notes are. -/
theorem C10_edit_sets_corrected (entry : MedicationHistory) (dt : Int)
    (editNotes : String) (r : MedicationHistory)
    (hsave : handleSaveEdit entry (some dt) editNotes = some r) :
    r.is_corrected = true ∧ r.actual_taken_datetime = dt ∧ r.notes = editNotes := by
  unfold handleSaveEdit at hsave
  cases hsave
  exact ⟨rfl, rfl, rfl⟩

/-! ### Witnesses -/

/-- Witness for C1: a prescription-1 instant at 2024-01-10 08:00:00, a
History Event with the same scheduled date and time, and a Log Event
at the same timestamp with status `missed`: the reconciled status is
`taken` and the History Event is linked, the conflicting Log Event
notwithstanding. -/
theorem C1_taken_iff_history_match_witness :
    (reconcile 1 ⟨⟨2024, 1, 10⟩, ⟨8, 0, 0⟩⟩
        [⟨7, 1, 1704873600000, Status.missed, false⟩]
        [⟨5, 1, ⟨2024, 1, 10⟩, ⟨8, 0, 0⟩, 1704874200000, false, ""⟩]).status =
      Status.taken ∧
    (reconcile 1 ⟨⟨2024, 1, 10⟩, ⟨8, 0, 0⟩⟩
        [⟨7, 1, 1704873600000, Status.missed, false⟩]
        [⟨5, 1, ⟨2024, 1, 10⟩, ⟨8, 0, 0⟩, 1704874200000, false, ""⟩]).historyEntry.isSome =
      true :=
  (C1_taken_iff_history_match 1 ⟨⟨2024, 1, 10⟩, ⟨8, 0, 0⟩⟩
      [⟨7, 1, 1704873600000, Status.missed, false⟩]
      [⟨5, 1, ⟨2024, 1, 10⟩, ⟨8, 0, 0⟩, 1704874200000, false, ""⟩] (by decide)).mpr
    ⟨⟨5, 1, ⟨2024, 1, 10⟩, ⟨8, 0, 0⟩, 1704874200000, false, ""⟩, by simp, rfl, rfl⟩

/-- Witness for C2: the spec's worked example.  A Log Event scheduled
30 seconds after the 2024-01-10 08:00:00 instant (within the
60-second tolerance) supplies its stored status; a Log Event 5
minutes away does not match and the status falls back to `pending`. -/
theorem C2_log_tolerance_witness :
    (∃ l ∈ [(⟨7, 1, 1704873630000, Status.taken, false⟩ : MedicationLog)],
      (l.scheduled_time - epochMs ⟨⟨2024, 1, 10⟩, ⟨8, 0, 0⟩⟩).natAbs < 60000 ∧
      (reconcile 1 ⟨⟨2024, 1, 10⟩, ⟨8, 0, 0⟩⟩
        [⟨7, 1, 1704873630000, Status.taken, false⟩] []).status = l.status ∧
      (reconcile 1 ⟨⟨2024, 1, 10⟩, ⟨8, 0, 0⟩⟩
        [⟨7, 1, 1704873630000, Status.taken, false⟩] []).log = some l) ∧
    (reconcile 1 ⟨⟨2024, 1, 10⟩, ⟨8, 0, 0⟩⟩
      [⟨8, 1, 1704873900000, Status.taken, false⟩] []).status = Status.pending :=
  ⟨(C2_log_tolerance_and_pending_fallback 1 ⟨⟨2024, 1, 10⟩, ⟨8, 0, 0⟩⟩
      [⟨7, 1, 1704873630000, Status.taken, false⟩] [] (by simp)).1
    ⟨⟨7, 1, 1704873630000, Status.taken, false⟩, by simp, by decide⟩,
   (C2_log_tolerance_and_pending_fallback 1 ⟨⟨2024, 1, 10⟩, ⟨8, 0, 0⟩⟩
      [⟨8, 1, 1704873900000, Status.taken, false⟩] [] (by simp)).2 (by decide)⟩

/-- Witness for C3: 2024-01-07 is a calendar Sunday
(`jsGetDay = 0`), and an active rule with weekday set `{7}` at
09:30 contributes its instant for that date. -/
theorem C3_weekday_membership_witness :
    scheduledInstant ⟨2024, 1, 7⟩ ⟨1, ⟨9, 30, 0⟩, 1, [7], true⟩ ∈
      generateScheduledTimes [⟨1, ⟨9, 30, 0⟩, 1, [7], true⟩] ⟨2024, 1, 7⟩ :=
  (C3_weekday_membership [⟨1, ⟨9, 30, 0⟩, 1, [7], true⟩] ⟨2024, 1, 7⟩).2
    (by decide) ⟨1, ⟨9, 30, 0⟩, 1, [7], true⟩ (by simp) rfl (by decide)

/-- Witness for C4 (amended): the instant produced on 2024-01-08 by
the daily 08:00:30 rule carries the target date, second 0, and the
rule's hour and minute. -/
theorem C4_local_time_witness :
    (⟨⟨2024, 1, 8⟩, ⟨8, 0, 0⟩⟩ : CivilDateTime).date = ⟨2024, 1, 8⟩ ∧
    (⟨⟨2024, 1, 8⟩, ⟨8, 0, 0⟩⟩ : CivilDateTime).time.second = 0 ∧
    ∃ s ∈ [(⟨1, ⟨8, 0, 30⟩, 1, [1, 2, 3, 4, 5, 6, 7], true⟩ : DoseSchedule)],
      s.is_active = true ∧
      (⟨⟨2024, 1, 8⟩, ⟨8, 0, 0⟩⟩ : CivilDateTime).time.hour = s.dose_time.hour ∧
      (⟨⟨2024, 1, 8⟩, ⟨8, 0, 0⟩⟩ : CivilDateTime).time.minute = s.dose_time.minute :=
  C4_local_time_hours_minutes
    [⟨1, ⟨8, 0, 30⟩, 1, [1, 2, 3, 4, 5, 6, 7], true⟩] ⟨2024, 1, 8⟩
    ⟨⟨2024, 1, 8⟩, ⟨8, 0, 0⟩⟩ (by decide)

/-- Witness for C5 (amended): with the duplicate-match snapshot of the
counterexample, the first matching entry is linked and the status is
`taken`. -/
theorem C5_first_match_wins_witness :
    reconcile 1 ⟨⟨2024, 1, 10⟩, ⟨8, 0, 0⟩⟩ []
      [⟨41, 1, ⟨2024, 1, 10⟩, ⟨8, 0, 0⟩, 1704874200000, false, ""⟩,
       ⟨42, 1, ⟨2024, 1, 10⟩, ⟨8, 0, 0⟩, 1704877800000, false, ""⟩] =
      ⟨Status.taken, none,
        some ⟨41, 1, ⟨2024, 1, 10⟩, ⟨8, 0, 0⟩, 1704874200000, false, ""⟩⟩ :=
  (C5_first_match_wins 1 ⟨⟨2024, 1, 10⟩, ⟨8, 0, 0⟩⟩ []
      [⟨41, 1, ⟨2024, 1, 10⟩, ⟨8, 0, 0⟩, 1704874200000, false, ""⟩,
       ⟨42, 1, ⟨2024, 1, 10⟩, ⟨8, 0, 0⟩, 1704877800000, false, ""⟩]
      ⟨41, 1, ⟨2024, 1, 10⟩, ⟨8, 0, 0⟩, 1704874200000, false, ""⟩ (by decide)).1

/-- Witness for C8: for three logs with two `taken`, the adherence
rate (67) is within 1/2 of the exact percentage 200/3. -/
theorem C8_aggregate_stats_witness :
    |(getAdherenceRate [⟨1, 1, 0, Status.taken, false⟩, ⟨2, 1, 0, Status.missed, false⟩,
        ⟨3, 1, 0, Status.taken, false⟩] : ℚ) -
      100 * ((([⟨1, 1, 0, Status.taken, false⟩, ⟨2, 1, 0, Status.missed, false⟩,
        ⟨3, 1, 0, Status.taken, false⟩] : List MedicationLog).countP
          (fun l => l.status == Status.taken) : ℚ)) /
        (([⟨1, 1, 0, Status.taken, false⟩, ⟨2, 1, 0, Status.missed, false⟩,
          ⟨3, 1, 0, Status.taken, false⟩] : List MedicationLog).length : ℚ)| ≤ 1 / 2 :=
  (C8_aggregate_stats []
    [⟨1, 1, 0, Status.taken, false⟩, ⟨2, 1, 0, Status.missed, false⟩,
     ⟨3, 1, 0, Status.taken, false⟩] (by simp)).2.2.2.2.2.2

/-- Witness for C9: a concrete reconciliation that links a History
Event, whose `prescription_id` therefore equals the instant's. -/
theorem C9_pid_witness :
    (reconcile 1 ⟨⟨2024, 1, 10⟩, ⟨8, 0, 0⟩⟩ []
      [⟨41, 1, ⟨2024, 1, 10⟩, ⟨8, 0, 0⟩, 1704874200000, false, ""⟩]).historyEntry =
      some ⟨41, 1, ⟨2024, 1, 10⟩, ⟨8, 0, 0⟩, 1704874200000, false, ""⟩ ∧
    (⟨41, 1, ⟨2024, 1, 10⟩, ⟨8, 0, 0⟩, 1704874200000, false, ""⟩ :
      MedicationHistory).prescription_id = 1 :=
  ⟨by decide,
   C9_history_pid_checked_log_pid_unchecked.1 1 ⟨⟨2024, 1, 10⟩, ⟨8, 0, 0⟩⟩ []
     [⟨41, 1, ⟨2024, 1, 10⟩, ⟨8, 0, 0⟩, 1704874200000, false, ""⟩]
     ⟨41, 1, ⟨2024, 1, 10⟩, ⟨8, 0, 0⟩, 1704874200000, false, ""⟩ (by decide)⟩

/-- Witness for C10: editing an entry while keeping the stored
actual-taken timestamp and changing only the notes still flips
`is_corrected` from `false` to `true`. -/
theorem C10_edit_sets_corrected_witness :
    handleSaveEdit ⟨9, 1, ⟨2024, 1, 10⟩, ⟨8, 0, 0⟩, 1704873600000, false, "a"⟩
        (some 1704873600000) "b" =
      some ⟨9, 1, ⟨2024, 1, 10⟩, ⟨8, 0, 0⟩, 1704873600000, true, "b"⟩ ∧
    ((⟨9, 1, ⟨2024, 1, 10⟩, ⟨8, 0, 0⟩, 1704873600000, true, "b"⟩ :
        MedicationHistory).is_corrected = true ∧
      (⟨9, 1, ⟨2024, 1, 10⟩, ⟨8, 0, 0⟩, 1704873600000, true, "b"⟩ :
        MedicationHistory).actual_taken_datetime = 1704873600000 ∧
      (⟨9, 1, ⟨2024, 1, 10⟩, ⟨8, 0, 0⟩, 1704873600000, true, "b"⟩ :
        MedicationHistory).notes = "b") :=
  ⟨rfl, C10_edit_sets_corrected
    ⟨9, 1, ⟨2024, 1, 10⟩, ⟨8, 0, 0⟩, 1704873600000, false, "a"⟩ 1704873600000 "b"
    ⟨9, 1, ⟨2024, 1, 10⟩, ⟨8, 0, 0⟩, 1704873600000, true, "b"⟩ rfl⟩

end Bolt
